import Mathlib

/-!
Verification of the blur / document-quality analysis library (`blurry-check`).

The development shallowly embeds the pixel-level and decision-level code of
the repository: `src/filters.ts` (`Filters.luminance`, `Filters.convolve`),
`src/blur-detector.ts` (`BlurDetector`: edge-width scan, verdicts, the
method combinator of `analyzeImage`), and `src/pdf-analyzer.ts`
(`PDFAnalyzer`: multi-scale page merge, text-sharpness estimation, the
per-page combination and the document-level aggregation of `analyzePDF`).

Modelling conventions:
* JavaScript numbers are modelled by `ℚ` (exact arithmetic in place of
  IEEE-754 doubles); byte cells of a `Uint8ClampedArray` by `ℕ`.
* A pixel buffer (`ImageData`) is a width, a height and a flat index → byte
  function addressed exactly as the source addresses its `data` array
  (`data[(y*width+x)*4 + channel]`).
* External collaborators (OpenCV, PDF.js, canvas rendering) enter as
  explicit inputs: the Laplacian-variance computation as an `Option ℚ`
  (`none` = the capability failed: not loaded, load timeout, or internal
  error), page renders as functions from scale to `ImageData`, per-page
  analysis outcomes as `Option` values.
-/

/-- Storing a computed value into a `Uint8ClampedArray` cell: clamp to
`[0, 255]` and round to the nearest integer with ties to even (the Web IDL
conversion rule used by JavaScript typed arrays). Both `Filters.luminance`
and `Filters.convolve` store every computed channel through such an array. -/
def clampU8 (q : ℚ) : ℕ :=
  if q ≤ 0 then 0
  else if 255 ≤ q then 255
  else
    let f := (⌊q⌋).toNat
    if q - ⌊q⌋ < 1/2 then f
    else if 1/2 < q - ⌊q⌋ then f + 1
    else if f % 2 = 0 then f else f + 1

/-- A pixel buffer, as the source's `ImageData`: row-major RGBA8, with the
flat byte array modelled as a function from index to byte value
(`data[(y*width+x)*4 + channel]`). -/
structure ImageData where
  width : ℕ
  height : ℕ
  data : ℕ → ℕ

/-- `Filters.luminance` (src/filters.ts): per pixel, the CIE luminance
`v = 0.2126 r + 0.7152 g + 0.0722 b` is written to the r, g and b channels
of the output and the alpha channel is copied. The per-index form below
computes the same cell values the source's loop writes. -/
def luminance (img : ImageData) : ImageData where
  width := img.width
  height := img.height
  data := fun i =>
    let base := 4 * (i / 4)
    if i % 4 = 3 then img.data (base + 3)
    else clampU8 ((2126 / 10000 : ℚ) * (img.data base : ℚ)
        + (7152 / 10000 : ℚ) * (img.data (base + 1) : ℚ)
        + (722 / 10000 : ℚ) * (img.data (base + 2) : ℚ))

/-- One output channel of `Filters.convolve` (src/filters.ts) at output
pixel (x, y): the kernel-window sum with border clamping.  The source
computes `scy = min(sh-1, max(0, y+cy-halfSide))`; `ℕ` subtraction already
truncates at 0, so `y + cy - halfSide` here equals the `max(0, ·)` form.
`side = Math.round(Math.sqrt(weights.length))`; `Nat.sqrt` agrees with it on
the perfect square 9 of the only kernel used (`sobelKernel`). -/
def convolveChannel (img : ImageData) (weights : List ℚ) (x y c : ℕ) : ℚ :=
  let side := Nat.sqrt weights.length
  let halfSide := side / 2
  (List.range side).foldl
    (fun acc cy =>
      (List.range side).foldl
        (fun acc2 cx =>
          let scy := min (img.height - 1) (y + cy - halfSide)
          let scx := min (img.width - 1) (x + cx - halfSide)
          let srcOff := (scy * img.width + scx) * 4
          acc2 + (img.data (srcOff + c) : ℚ) * weights.getD (cy * side + cx) 0)
        acc)
    0

/-- `Filters.convolve` (src/filters.ts): convolution with border clamping;
in opaque mode (`opq = true`) the alpha output is `a + 1*(255 - a)`, else
`a + 0*(255 - a)`.  Channel values are written through the clamped byte
array (`clampU8`).  The per-index form computes, for flat index `i`, the
value the source's double loop stores at `dst[i]`. -/
def convolve (img : ImageData) (weights : List ℚ) (opq : Bool) : ImageData where
  width := img.width
  height := img.height
  data := fun i =>
    let c := i % 4
    let p := i / 4
    let x := p % img.width
    let y := p / img.width
    if c = 3 then
      let a := convolveChannel img weights x y 3
      clampU8 (a + (if opq then 1 else 0) * (255 - a))
    else
      clampU8 (convolveChannel img weights x y c)

/-- The 3×3 Sobel-style gradient kernel of `BlurDetector.detectEdges`. -/
def sobelKernel : List ℚ := [1, 0, -1, 2, 0, -2, 1, 0, -1]

/-- `BlurDetector.detectEdges` (src/blur-detector.ts): luminance grayscale
followed by convolution with the Sobel-style kernel in opaque mode. -/
def detectEdges (img : ImageData) : ImageData :=
  convolve (luminance img) sobelKernel true

/-- `BlurDetector.reducedPixels` (src/blur-detector.ts): one byte per
column per row, taking channel 0 of each pixel
(`row[x] = pixels[y*rowLen + 4x]`). -/
def reducedPixels (img : ImageData) : List (List ℕ) :=
  (List.range img.height).map fun y =>
    (List.range img.width).map fun x => img.data ((y * img.width + x) * 4)

/-- The metrics record produced by `BlurDetector.detectBlur`. -/
structure EdgeMetrics where
  width : ℕ
  height : ℕ
  numEdges : ℕ
  avgEdgeWidth : ℚ
  avgEdgeWidthPerc : ℚ
deriving DecidableEq, Repr

/-- The inner column loop of `BlurDetector.detectBlur` on one row, returning
`(numEdges, sumEdgeWidths)` for that row.  State: current column `x`, the
open edge start (`edgeStart ≥ 0` of the source as `some start`), and the
previous pixel's value (`pixels[y][x-1]`).  At each pixel `value`:
if an edge is open and `value < oldValue` then the edge is closed —
recording width `x - edgeStart - 1` iff `oldValue ≥ 20`; afterwards
`value == 0` (re)opens an edge start at `x`.  The guard `x > edgeStart` of
the source is invariant (a start is always strictly left of the current
column), see `scanRowGo_claimScan` below. -/
def scanRowGo : ℕ → Option ℕ → ℕ → List ℕ → ℕ × ℕ
  | _, _, _, [] => (0, 0)
  | x, es, prev, v :: rest =>
    let step : ℕ × ℕ × Option ℕ :=
      match es with
      | some s =>
        if v < prev then
          (if 20 ≤ prev then (1, x - s - 1, none) else (0, 0, none))
        else (0, 0, some s)
      | none => (0, 0, none)
    let es' := if v = 0 then some x else step.2.2
    let rec' := scanRowGo (x + 1) es' v rest
    (step.1 + rec'.1, step.2.1 + rec'.2)

/-- The row loop of `BlurDetector.detectBlur`: `numEdges` and
`sumEdgeWidths` accumulated over all rows.  The first column of each row
starts with no open edge (`edgeStart = -1`), so the initial `prev` argument
is never consulted. -/
def edgeScanTotals (rows : List (List ℕ)) : ℕ × ℕ :=
  rows.foldl
    (fun a row =>
      let r := scanRowGo 0 none 0 row
      (a.1 + r.1, a.2 + r.2))
    (0, 0)

/-- `BlurDetector.detectBlur` (src/blur-detector.ts): edge scan totals over
all rows; `width = pixels[0].length`, `height = pixels.length`; if no edge
was found the averages are 0, otherwise `avgEdgeWidth =
sumEdgeWidths/numEdges` and `avgEdgeWidthPerc = avgEdgeWidth/width*100`. -/
def detectBlur (rows : List (List ℕ)) : EdgeMetrics :=
  let width := (rows.headD []).length
  let height := rows.length
  let acc := edgeScanTotals rows
  if acc.1 = 0 then
    { width := width, height := height, numEdges := 0
      avgEdgeWidth := 0, avgEdgeWidthPerc := 0 }
  else
    let avgEdgeWidth : ℚ := (acc.2 : ℚ) / (acc.1 : ℚ)
    { width := width, height := height, numEdges := acc.1
      avgEdgeWidth := avgEdgeWidth
      avgEdgeWidthPerc := avgEdgeWidth / (width : ℚ) * 100 }

/-- `BlurDetector.measureBlurByEdges` (src/blur-detector.ts). -/
def measureBlurByEdges (img : ImageData) : EdgeMetrics :=
  detectBlur (reducedPixels (detectEdges img))

/-- The detection method of the configuration
(`'edge' | 'laplacian' | 'both'` in src/types.ts). -/
inductive Method
  | edge
  | laplacian
  | both
deriving DecidableEq, Repr

/-- The string tag a method writes into `result.method`. -/
def Method.tag : Method → String
  | .edge => "edge"
  | .laplacian => "laplacian"
  | .both => "both"

/-- The fully-resolved configuration (`Required<BlurDetectionConfig>` minus
the `openCvUrl` and `canvas` fields, which only parameterize the external
collaborators and never the decision logic). -/
structure Config where
  edgeWidthThreshold : ℚ
  laplacianThreshold : ℚ
  method : Method
  debug : Bool
deriving DecidableEq, Repr

/-- The user-facing configuration (`BlurDetectionConfig`, src/types.ts):
every field optional. -/
structure BlurDetectionConfig where
  edgeWidthThreshold : Option ℚ := none
  laplacianThreshold : Option ℚ := none
  method : Option Method := none
  debug : Option Bool := none
deriving DecidableEq, Repr

/-- The defaulting of `BlurDetector`'s constructor
(src/blur-detector.ts): `?? 0.3`, `?? 150`, `?? 'both'`, `?? false`. -/
def mkDetectorConfig (c : BlurDetectionConfig) : Config where
  edgeWidthThreshold := c.edgeWidthThreshold.getD (3/10)
  laplacianThreshold := c.laplacianThreshold.getD 150
  method := c.method.getD .both
  debug := c.debug.getD false

/-- The defaulting of `BlurryCheck`'s constructor (src/index.ts): the
object spread `{edgeWidthThreshold: 0.5, laplacianThreshold: 100,
method: 'edge', debug: false, ...config}`, after which `BlurDetector`'s
`??` defaults never fire because every field is set. -/
def mkBlurryCheckConfig (c : BlurDetectionConfig) : Config where
  edgeWidthThreshold := c.edgeWidthThreshold.getD (1/2)
  laplacianThreshold := c.laplacianThreshold.getD 100
  method := c.method.getD .edge
  debug := c.debug.getD false

/-- The `metrics` object of a `BlurAnalysisResult` (src/types.ts), with the
two fields the decision logic reads.  `none` models an absent
(`undefined`) field. -/
structure Metrics where
  edgeAnalysis : Option EdgeMetrics := none
  laplacianVariance : Option ℚ := none
deriving DecidableEq, Repr

/-- A `BlurAnalysisResult` (src/types.ts). -/
structure BlurAnalysisResult where
  isBlurry : Bool
  confidence : ℚ
  metrics : Metrics
  method : String
deriving DecidableEq, Repr

/-- The low-edge-count heuristic of `BlurDetector.analyzeImage`
(src/blur-detector.ts): `numEdges < (width*height)/10000`
(floating-point division in the source). -/
def lowEdgeCount (w h : ℕ) (ea : EdgeMetrics) : Bool :=
  decide ((ea.numEdges : ℚ) < ((w : ℚ) * (h : ℚ)) / 10000)

/-- The edge confidence formula of `BlurDetector.analyzeImage`
(`Math.min(avgEdgeWidthPerc / edgeWidthThreshold, 1)`), repeated verbatim
at its four occurrences in the source. -/
def edgeConfidenceOf (cfg : Config) (ea : EdgeMetrics) : ℚ :=
  min (ea.avgEdgeWidthPerc / cfg.edgeWidthThreshold) 1

/-- `BlurDetector.analyzeImage` (src/blur-detector.ts).  The image is
already converted (`getImageData` is external); the outcome of
`detectBlurrinessWithOpenCV` is the explicit input `vo : Option ℚ`
(`none` = the OpenCV capability failed — not loaded, load timeout, or an
internal error — i.e. the `catch` branch of the source runs).

Mirrors the source's three sequential `if` blocks over one result record:
* `method ∈ {edge, both}`: compute the edge metrics; for `edge`, set the
  combined edge verdict and the edge confidence.
* `method ∈ {laplacian, both}`: on success store the variance and, for
  `laplacian`, set the variance verdict with confidence
  `min(laplacianThreshold/variance, 1)` — JavaScript division of the
  positive threshold by `variance = 0` yields `+∞`, so the stored minimum
  is 1, the `v = 0` case below (the thresholds are positive in every use);
  on failure, for `laplacian` only, fall back to the edge metrics with
  verdict `avgEdgeWidthPerc > edgeWidthThreshold` and tag the method
  `"edge (fallback)"`.
* `method = both`: combine.  The source guards each metric with JavaScript
  truthiness (`result.metrics.laplacianVariance ? … : …`), under which a
  stored variance of 0 counts as absent — the `if v = 0` branches below. -/
def analyzeImage (cfg : Config) (img : ImageData) (vo : Option ℚ) :
    BlurAnalysisResult :=
  let r0 : BlurAnalysisResult :=
    { isBlurry := false, confidence := 0, metrics := {}, method := cfg.method.tag }
  let r1 :=
    if cfg.method = .edge ∨ cfg.method = .both then
      let ea := measureBlurByEdges img
      let isBlurryByEdge := decide (cfg.edgeWidthThreshold < ea.avgEdgeWidthPerc)
      let combined := isBlurryByEdge || lowEdgeCount img.width img.height ea
      let r := { r0 with metrics := { r0.metrics with edgeAnalysis := some ea } }
      if cfg.method = .edge then
        { r with isBlurry := combined, confidence := edgeConfidenceOf cfg ea }
      else r
    else r0
  let r2 :=
    if cfg.method = .laplacian ∨ cfg.method = .both then
      match vo with
      | some v =>
        let r := { r1 with
          metrics := { r1.metrics with laplacianVariance := some v } }
        if cfg.method = .laplacian then
          { r with
            isBlurry := decide (v < cfg.laplacianThreshold)
            confidence := if v = 0 then 1 else min (cfg.laplacianThreshold / v) 1 }
        else r
      | none =>
        if cfg.method = .laplacian then
          let ea := measureBlurByEdges img
          { r1 with
            metrics := { r1.metrics with edgeAnalysis := some ea }
            isBlurry := decide (cfg.edgeWidthThreshold < ea.avgEdgeWidthPerc)
            confidence := edgeConfidenceOf cfg ea
            method := "edge (fallback)" }
        else r1
    else r1
  if cfg.method = .both then
    let edgeBlurry :=
      match r2.metrics.edgeAnalysis with
      | some ea => decide (cfg.edgeWidthThreshold < ea.avgEdgeWidthPerc)
      | none => false
    let lowEdge :=
      match r2.metrics.edgeAnalysis with
      | some ea => lowEdgeCount img.width img.height ea
      | none => false
    let laplacianBlurry :=
      match r2.metrics.laplacianVariance with
      | some v => if v = 0 then false else decide (v < cfg.laplacianThreshold)
      | none => false
    let edgeConfidence : ℚ :=
      match r2.metrics.edgeAnalysis with
      | some ea => edgeConfidenceOf cfg ea
      | none => 0
    let laplacianConfidence : ℚ :=
      match r2.metrics.laplacianVariance with
      | some v => if v = 0 then 0 else min (cfg.laplacianThreshold / v) 1
      | none => 0
    { r2 with
      isBlurry := (edgeBlurry || lowEdge) || laplacianBlurry
      confidence := max edgeConfidence laplacianConfidence }
  else r2

/-- The multi-scale merge of `PDFAnalyzer.checkPdfPageQuality`
(src/pdf-analyzer.ts): `blurryCount` over the per-scale results,
`isBlurry = blurryCount > 0`, `confidence = max(avgConfidence,
blurryCount/totalScales)`, spread over the last (highest-scale) result.
The `scaleResults` diagnostic sub-listing the source attaches to `metrics`
is not represented in the `Metrics` record; no decision logic reads it. -/
def mergeScaleResults (results : List BlurAnalysisResult) : BlurAnalysisResult :=
  let blurryCount := (results.filter (fun r => r.isBlurry)).length
  let avgConfidence : ℚ :=
    (results.foldl (fun sum r => sum + r.confidence) 0) / (results.length : ℚ)
  let bestResult := results.getLastD
    { isBlurry := false, confidence := 0, metrics := {}, method := "" }
  { bestResult with
    isBlurry := decide (0 < blurryCount)
    confidence := max avgConfidence ((blurryCount : ℚ) / (results.length : ℚ))
    method := "Multi-scale analysis (" ++ toString blurryCount ++ "/"
      ++ toString results.length ++ " scales detected blur)" }

/-- The render scales of `PDFAnalyzer.checkPdfPageQuality`:
`[1.0, 1.5, 2.0]`. -/
def pdfScales : List ℚ := [1, 3/2, 2]

/-- The per-scale detector configuration built inside
`PDFAnalyzer.checkPdfPageQuality`: `edgeWidthThreshold:
Math.min(config.edgeWidthThreshold || 0.5, 0.25)` (JavaScript `||`: an
absent — or zero, i.e. falsy — threshold falls back to 0.5),
`method: 'edge'`; the remaining fields pass through `BlurDetector`'s
constructor defaults. -/
def pdfScaleConfig (c : BlurDetectionConfig) : Config where
  edgeWidthThreshold :=
    min (match c.edgeWidthThreshold with
         | some t => if t = 0 then 1/2 else t
         | none => 1/2)
      (1/4)
  laplacianThreshold := c.laplacianThreshold.getD 150
  method := .edge
  debug := c.debug.getD false

/-- `PDFAnalyzer.checkPdfPageQuality` (src/pdf-analyzer.ts): render the
page at the three scales (`render`, the external PDF.js + canvas
collaborator, maps a scale to the rendered buffer), analyze each render
with the per-scale edge configuration, tag each result with its scale, and
merge.  The OpenCV outcome argument of `analyzeImage` is never consulted by
the edge method and is passed as `none`; the scale tag prints the exact
rational (the source prints the float). -/
def checkPdfPageQuality (c : BlurDetectionConfig) (render : ℚ → ImageData) :
    BlurAnalysisResult :=
  mergeScaleResults (pdfScales.map fun s =>
    let r := analyzeImage (pdfScaleConfig c) (render s) none
    { r with method := r.method ++ " (scale " ++ toString s ++ "x)" })

/-- The record returned by `PDFAnalyzer.calculateTextSharpness`
(src/pdf-analyzer.ts), with its `textMetrics` fields inlined. -/
structure TextSharpness where
  textSharpnessScore : ℚ
  isTextBlurry : Bool
  avgVariance : ℚ
  avgEdgeIntensity : ℚ
  sampleCount : ℕ
deriving DecidableEq, Repr

/-- The grayscale conversion used inside `calculateTextSharpness`:
`0.299 r + 0.587 g + 0.114 b` at pixel (x, y) (these weights are distinct
from the CIE weights of `Filters.luminance`). -/
def grayAt (img : ImageData) (x y : ℕ) : ℚ :=
  let idx := (y * img.width + x) * 4
  (299/1000 : ℚ) * (img.data idx : ℚ) + (587/1000 : ℚ) * (img.data (idx + 1) : ℚ)
    + (114/1000 : ℚ) * (img.data (idx + 2) : ℚ)

/-- The per-window locals of `calculateTextSharpness`'s inner 5×5 loop. -/
structure WindowAcc where
  localSum : ℚ
  localSumSq : ℚ
  localCount : ℕ
  maxGradient : ℚ
deriving DecidableEq, Repr

/-- The inner 5×5 sampling loop of `PDFAnalyzer.calculateTextSharpness` at
window origin (x, y): luminance sum, sum of squares, count, and the maximum
adjacent-pixel gradient magnitude over the window (computed for
`dx < 4 ∧ dy < 4` from the right- and down-neighbor differences).
`Rat.sqrt` models `Math.sqrt`: it is exact at 0 (and at perfect squares),
which is the only point where the theorems below evaluate it. -/
def windowAccAt (img : ImageData) (x y : ℕ) : WindowAcc :=
  (List.range 5).foldl
    (fun acc dy =>
      (List.range 5).foldl
        (fun acc2 dx =>
          let g := grayAt img (x + dx) (y + dy)
          let acc3 : WindowAcc :=
            { localSum := acc2.localSum + g
              localSumSq := acc2.localSumSq + g * g
              localCount := acc2.localCount + 1
              maxGradient := acc2.maxGradient }
          if dx < 4 ∧ dy < 4 then
            let rightGray := grayAt img (x + dx + 1) (y + dy)
            let downGray := grayAt img (x + dx) (y + dy + 1)
            let grad := Rat.sqrt ((rightGray - g) * (rightGray - g)
              + (downGray - g) * (downGray - g))
            { acc3 with maxGradient := max acc3.maxGradient grad }
          else acc3)
        acc)
    { localSum := 0, localSumSq := 0, localCount := 0, maxGradient := 0 }

/-- The running totals of `calculateTextSharpness`'s window sweep. -/
structure TSAcc where
  totalVariance : ℚ
  edgeIntensity : ℚ
  sampleCount : ℕ
deriving DecidableEq, Repr

/-- One window of `calculateTextSharpness`'s sweep: windows whose local
luminance variance exceeds 100 are treated as text-bearing and contribute
their variance and maximum gradient to the running totals. -/
def textSharpnessStep (img : ImageData) (acc : TSAcc) (x y : ℕ) : TSAcc :=
  let w := windowAccAt img x y
  if 0 < w.localCount then
    let mean := w.localSum / (w.localCount : ℚ)
    let variance := w.localSumSq / (w.localCount : ℚ) - mean * mean
    if 100 < variance then
      { totalVariance := acc.totalVariance + variance
        edgeIntensity := acc.edgeIntensity + w.maxGradient
        sampleCount := acc.sampleCount + 1 }
    else acc
  else acc

/-- The adaptive stride of `calculateTextSharpness`:
`max(1, floor(min(width, height)/100))`. -/
def strideOf (img : ImageData) : ℕ := max 1 (min img.width img.height / 100)

/-- The positions visited by one of `calculateTextSharpness`'s sweep loops
(`for (p = 0; p < limit; p += stride)`); `limit` is `height - 5` resp.
`width - 5`, already truncated at 0 by `ℕ` subtraction just as the
JavaScript loop with a negative bound runs zero iterations. -/
def samplePositions (limit stride : ℕ) : List ℕ :=
  (List.range ((limit + stride - 1) / stride)).map (fun k => k * stride)

/-- `PDFAnalyzer.calculateTextSharpness` (src/pdf-analyzer.ts).  (The
`textItems` parameter of the source is unused by its body; the sweep
samples the whole buffer.)  `sharpnessScore = avgVariance/1000 +
avgEdgeIntensity/50`, `isTextBlurry = sharpnessScore < 0.8`. -/
def calculateTextSharpness (img : ImageData) : TextSharpness :=
  let stride := strideOf img
  let acc := (samplePositions (img.height - 5) stride).foldl
    (fun acc y =>
      (samplePositions (img.width - 5) stride).foldl
        (fun acc2 x => textSharpnessStep img acc2 x y)
        acc)
    { totalVariance := 0, edgeIntensity := 0, sampleCount := 0 }
  let avgVariance : ℚ :=
    if 0 < acc.sampleCount then acc.totalVariance / (acc.sampleCount : ℚ) else 0
  let avgEdgeIntensity : ℚ :=
    if 0 < acc.sampleCount then acc.edgeIntensity / (acc.sampleCount : ℚ) else 0
  let sharpnessScore := avgVariance / 1000 + avgEdgeIntensity / 50
  { textSharpnessScore := sharpnessScore
    isTextBlurry := decide (sharpnessScore < 4/5)
    avgVariance := avgVariance
    avgEdgeIntensity := avgEdgeIntensity
    sampleCount := acc.sampleCount }

/-- The per-page combination of `PDFAnalyzer.analyzePDF`
(src/pdf-analyzer.ts): for a page with extractable text, the multi-scale
page verdict is OR-combined with the text-sharpness verdict and the
confidence becomes `max(pageAnalysis.confidence, textSharpnessScore)`; a
likely header/logo page is instead judged only by
`textSharpnessScore < 0.5`. -/
def combinePageWithText (pageAnalysis : BlurAnalysisResult)
    (ts : TextSharpness) (isLikelyHeaderPage : Bool) : BlurAnalysisResult :=
  let finalIsBlurry :=
    if isLikelyHeaderPage then decide (ts.textSharpnessScore < 1/2)
    else pageAnalysis.isBlurry || ts.isTextBlurry
  { pageAnalysis with
    isBlurry := finalIsBlurry
    confidence := max pageAnalysis.confidence ts.textSharpnessScore
    method := pageAnalysis.method ++ " + Text Analysis"
      ++ (if isLikelyHeaderPage then " (Header-adjusted)" else "") }

/-- The document-level decision of `PDFAnalyzer.analyzePDF`
(src/pdf-analyzer.ts, lines 444-479), over the collected per-page results:
no result → `true` unchanged; a single page → no blurry page; several
pages → first-page leniency, then the majority rule
`blurryNonFirst ≥ Math.ceil(nonFirst.length / 2)` over the non-first
pages. -/
def documentIsQualityGood : List BlurAnalysisResult → Bool
  | [] => true
  | [r] => decide ((([r].filter (fun p => p.isBlurry)).length) = 0)
  | first :: rest =>
    let blurryNonFirst := (rest.filter (fun p => p.isBlurry)).length
    let firstPageBlurry := first.isBlurry
    let restPagesBlurry := decide (0 < blurryNonFirst)
    if firstPageBlurry && !restPagesBlurry then true
    else if decide ((⌈((rest.length : ℚ)) / 2⌉ : ℚ) ≤ (blurryNonFirst : ℚ)) then false
    else true

/-- A `PDFAnalysisResult` (src/types.ts); `pageResults = none` models the
`undefined` the source stores when no page produced a result. -/
structure PDFAnalysisResult where
  isQualityGood : Bool
  isScanned : Bool
  pagesAnalyzed : ℕ
  textLength : ℕ
  pageResults : Option (List BlurAnalysisResult)
deriving DecidableEq, Repr

/-- The result assembly of `PDFAnalyzer.analyzePDF` (src/pdf-analyzer.ts)
after the per-page loop.  Rendering and per-page analysis are external
here: the loop visits every page `i = 1..numPages` in order and each page
contributes `some result`, or `none` when its analysis threw (the caught
`PageAnalysisFailure` — the loop logs and continues), so `pageOutcomes`
has one entry per document page and `pagesAnalyzed = pdf.numPages =
pageOutcomes.length`.  `anyPageNoText` is true when some page had zero
extracted text items; `textLength` is the length of the concatenated
extracted text. -/
def analyzePDFAggregate (pageOutcomes : List (Option BlurAnalysisResult))
    (anyPageNoText : Bool) (textLength : ℕ) : PDFAnalysisResult :=
  let pageResults := pageOutcomes.filterMap id
  let isTextBased := decide (10 ≤ textLength)
  let finalIsScanned := anyPageNoText || !isTextBased
  { isQualityGood := documentIsQualityGood pageResults
    isScanned := finalIsScanned
    pagesAnalyzed := pageOutcomes.length
    textLength := textLength
    pageResults := if 0 < pageResults.length then some pageResults else none }

/-- A uniform flat-color RGBA buffer. -/
def flatImage (w h r g b a : ℕ) : ImageData where
  width := w
  height := h
  data := fun i =>
    if i % 4 = 0 then r else if i % 4 = 1 then g else if i % 4 = 2 then b else a

/-- A 6×6 buffer: black everywhere except the single white pixel at
x = 4, y = 4 (flat pixel index 28); alpha 255. -/
def sharpCornerImage : ImageData where
  width := 6
  height := 6
  data := fun i => if i / 4 = 28 ∨ i % 4 = 3 then 255 else 0

/-- Modelled from the claim's wording of the edge-width scan, as a
description of which edges one row records, listed as
(startIndex, closeIndex) pairs: scanning columns left to right, an edge
start opens at a pixel whose value equals 0 (a later 0 re-opens the start);
an open edge closes at a later pixel whose value is strictly less than its
immediate predecessor's value, the close recording the pair — hence an edge
of width `closeIndex - startIndex - 1` — exactly when that predecessor's
value is at least 20. -/
def claimScan : ℕ → Option ℕ → ℕ → List ℕ → List (ℕ × ℕ)
  | _, _, _, [] => []
  | x, st, prev, v :: rest =>
    let closed : List (ℕ × ℕ) × Option ℕ :=
      match st with
      | some s =>
        if v < prev then ((if 20 ≤ prev then [(s, x)] else []), none)
        else ([], some s)
      | none => ([], none)
    let st' := if v = 0 then some x else closed.2
    closed.1 ++ claimScan (x + 1) st' v rest

/-- The edges of one row under the claim's description. -/
def claimRowEdges (row : List ℕ) : List (ℕ × ℕ) := claimScan 0 none 0 row

/-- A clear (non-blurry) page-result fixture. -/
def clearPage : BlurAnalysisResult where
  isBlurry := false
  confidence := 0
  metrics := {}
  method := "Multi-scale analysis (0/3 scales detected blur)"

/-- A blurry page-result fixture. -/
def blurryPage : BlurAnalysisResult where
  isBlurry := true
  confidence := 1
  metrics := {}
  method := "Multi-scale analysis (3/3 scales detected blur)"

/-! ## Verification -/

/-- The source's row loop agrees, row by row, with the claim-side edge
listing: the loop's `numEdges` is the number of listed edges and its
`sumEdgeWidths` is the sum of their widths `closeIndex - startIndex - 1`. -/
theorem scanRowGo_claimScan (rest : List ℕ) : ∀ (x : ℕ) (es : Option ℕ) (prev : ℕ),
    scanRowGo x es prev rest =
      ((claimScan x es prev rest).length,
       ((claimScan x es prev rest).map (fun e => e.2 - e.1 - 1)).sum) := by
  induction rest with
  | nil => intro x es prev; simp [scanRowGo, claimScan]
  | cons v rest ih =>
    intro x es prev
    cases es with
    | none => simp [scanRowGo, claimScan, ih]
    | some s =>
      by_cases h1 : v < prev
      · by_cases h2 : 20 ≤ prev
        · simp [scanRowGo, claimScan, h1, h2, ih]
          omega
        · simp [scanRowGo, claimScan, h1, h2, ih]
      · simp [scanRowGo, claimScan, h1, ih]

theorem edgeScanTotals_claim (rows : List (List ℕ)) :
    edgeScanTotals rows =
      ((rows.map (fun r => (claimRowEdges r).length)).sum,
       (rows.map (fun r => ((claimRowEdges r).map (fun e => e.2 - e.1 - 1)).sum)).sum) := by
  have go : ∀ (rs : List (List ℕ)) (a : ℕ × ℕ),
      rs.foldl
        (fun a row =>
          let r := scanRowGo 0 none 0 row
          (a.1 + r.1, a.2 + r.2))
        a =
      (a.1 + (rs.map (fun r => (claimRowEdges r).length)).sum,
       a.2 + (rs.map (fun r => ((claimRowEdges r).map (fun e => e.2 - e.1 - 1)).sum)).sum) := by
    intro rs
    induction rs with
    | nil => intro a; simp
    | cons row rs ih =>
      intro a
      rw [List.foldl_cons, ih]
      simp only [scanRowGo_claimScan, List.map_cons, List.sum_cons, claimRowEdges,
        Prod.mk.injEq]
      constructor <;> omega
  simpa using go rows (0, 0)

/-- C4.  Edge-width scan: for every reduced buffer, an edge start opens at a
pixel equal to 0 and closes at a later pixel strictly smaller than its
immediate predecessor when that predecessor is at least 20, recording an
edge of width `closeIndex - startIndex - 1` (the claim-side listing
`claimRowEdges`); `detectBlur`'s edge count and total width are these
counts and widths accumulated over all rows of the buffer. -/
theorem edge_scan_records_claimed_edges (rows : List (List ℕ)) :
    (detectBlur rows).numEdges = (rows.map (fun r => (claimRowEdges r).length)).sum
  ∧ edgeScanTotals rows =
      ((rows.map (fun r => (claimRowEdges r).length)).sum,
       (rows.map (fun r => ((claimRowEdges r).map (fun e => e.2 - e.1 - 1)).sum)).sum) := by
  refine ⟨?_, edgeScanTotals_claim rows⟩
  unfold detectBlur
  rcases h : edgeScanTotals rows with ⟨n, s⟩
  have := edgeScanTotals_claim rows
  rw [h] at this
  by_cases hn : n = 0
  · simp [hn] at this ⊢
    omega
  · simp [hn] at this ⊢
    omega

/-- The majority comparison of the source, `blurryNonFirst ≥
Math.ceil(nonFirst.length / 2)` over floats, coincides with the natural
ceiling `(n + 1) / 2 ≤ k`. -/
theorem ceil_half_le_iff (n k : ℕ) :
    ((⌈((n : ℚ)) / 2⌉ : ℚ) ≤ (k : ℚ)) ↔ (n + 1) / 2 ≤ k := by
  have hcast : ((k : ℚ)) = ((k : ℤ) : ℚ) := by push_cast; ring
  rw [hcast, Int.cast_le, Int.ceil_le]
  rw [div_le_iff (by norm_num : (0:ℚ) < 2)]
  constructor
  · intro h
    have hn : n ≤ k * 2 := by exact_mod_cast h
    omega
  · intro h
    have hn : n ≤ k * 2 := by omega
    exact_mod_cast hn

/-- C1.  Document-level aggregation: one page result → `isQualityGood` is
the negation of that page's verdict; two or more page results → if the
first page is blurry and no non-first page is, the verdict is good;
otherwise quality is poor exactly when the blurry non-first pages reach
`ceil(nonFirst/2)`. -/
theorem document_aggregation_policy (first : BlurAnalysisResult)
    (rest : List BlurAnalysisResult) (hrest : rest ≠ []) :
    documentIsQualityGood [first] = !first.isBlurry
  ∧ documentIsQualityGood (first :: rest) =
      (if first.isBlurry = true ∧ (rest.filter (fun p => p.isBlurry)).length = 0 then true
       else if (rest.length + 1) / 2 ≤ (rest.filter (fun p => p.isBlurry)).length then false
       else true) := by
  constructor
  · cases h : first.isBlurry <;> simp [documentIsQualityGood, h]
  · obtain ⟨b, l, rfl⟩ := List.exists_cons_of_ne_nil hrest
    have hd : decide ((⌈(((b :: l).length : ℚ)) / 2⌉ : ℚ)
          ≤ (((b :: l).filter (fun p => p.isBlurry)).length : ℚ))
        = decide ((((b :: l).length) + 1) / 2
          ≤ ((b :: l).filter (fun p => p.isBlurry)).length) :=
      decide_eq_decide.mpr (ceil_half_le_iff _ _)
    simp only [documentIsQualityGood]
    rw [hd]
    by_cases hf : first.isBlurry = true <;>
      by_cases hc : (List.filter (fun p => p.isBlurry) (b :: l)).length = 0 <;>
        by_cases hm : (((b :: l).length) + 1) / 2 ≤
            (List.filter (fun p => p.isBlurry) (b :: l)).length <;>
          simp [hf, hc, hm, Nat.pos_iff_ne_zero]

theorem document_aggregation_policy_witness :
    documentIsQualityGood [blurryPage, clearPage, clearPage] = true
  ∧ documentIsQualityGood [clearPage, blurryPage, blurryPage, blurryPage, clearPage] = false := by
  have h1 := document_aggregation_policy blurryPage [clearPage, clearPage] (by simp)
  have h2 := document_aggregation_policy clearPage
    [blurryPage, blurryPage, blurryPage, clearPage] (by simp)
  refine ⟨?_, ?_⟩
  · rw [h1.2]
    simp [blurryPage, clearPage]
  · rw [h2.2]
    simp [blurryPage, clearPage]

/-- C9.  When the analysis of every page throws, the document result still
comes back with `isQualityGood = true`, an absent (`undefined`)
`pageResults`, and `pagesAnalyzed` equal to the document's page count —
it counts the document's pages, not the successfully analyzed ones. -/
theorem all_pages_failed_aggregate (outcomes : List (Option BlurAnalysisResult))
    (anyPageNoText : Bool) (textLength : ℕ)
    (h : ∀ o ∈ outcomes, o = none) :
    (analyzePDFAggregate outcomes anyPageNoText textLength).isQualityGood = true
  ∧ (analyzePDFAggregate outcomes anyPageNoText textLength).pageResults = none
  ∧ (analyzePDFAggregate outcomes anyPageNoText textLength).pagesAnalyzed
      = outcomes.length := by
  have hnil : outcomes.filterMap id = [] := by
    rw [List.filterMap_eq_nil]
    simpa using h
  simp [analyzePDFAggregate, hnil, documentIsQualityGood]

theorem all_pages_failed_aggregate_witness :
    (analyzePDFAggregate [none, none] false 0).isQualityGood = true
  ∧ (analyzePDFAggregate [none, none] false 0).pageResults = none
  ∧ (analyzePDFAggregate [none, none] false 0).pagesAnalyzed = 2 := by
  have h := all_pages_failed_aggregate [none, none] false 0 (by simp)
  exact ⟨h.1, h.2.1, by simpa using h.2.2⟩

/-- C8.  Every configuration field is optional (`BlurDetectionConfig` has
only optional fields), and the analysis constructed with no configuration
(the `BlurryCheck` entry point, src/index.ts) uses method `edge`,
`edgeWidthThreshold = 0.5`, a variance threshold within 100–150 (namely
100), and `debug = false`. -/
theorem default_configuration :
    (mkBlurryCheckConfig {}).method = .edge
  ∧ (mkBlurryCheckConfig {}).edgeWidthThreshold = 1/2
  ∧ 100 ≤ (mkBlurryCheckConfig {}).laplacianThreshold
  ∧ (mkBlurryCheckConfig {}).laplacianThreshold ≤ 150
  ∧ (mkBlurryCheckConfig {}).debug = false := by
  refine ⟨rfl, rfl, ?_, ?_, rfl⟩ <;> norm_num [mkBlurryCheckConfig]

/-- The luminance of the flat buffer, at any channel-0 index: the same
clamped CIE value everywhere. -/
theorem luminance_flat_channel0 (w h r g b a k : ℕ) :
    (luminance (flatImage w h r g b a)).data (k * 4)
      = clampU8 ((2126 / 10000 : ℚ) * (r : ℚ) + (7152 / 10000 : ℚ) * (g : ℚ)
          + (722 / 10000 : ℚ) * (b : ℚ)) := by
  have h0 : (k * 4) % 4 = 0 := by omega
  have h2 : 4 * (k * 4 / 4) = k * 4 := by omega
  have n0 : (4 * k) % 4 = 0 := by omega
  have m1a : ¬((4 * k + 1) % 4 = 0) := by omega
  have m1b : (4 * k + 1) % 4 = 1 := by omega
  have m2a : ¬((4 * k + 2) % 4 = 0) := by omega
  have m2b : ¬((4 * k + 2) % 4 = 1) := by omega
  have m2c : (4 * k + 2) % 4 = 2 := by omega
  have m1a' : ¬((k * 4 + 1) % 4 = 0) := by omega
  have m1b' : (k * 4 + 1) % 4 = 1 := by omega
  have m2a' : ¬((k * 4 + 2) % 4 = 0) := by omega
  have m2b' : ¬((k * 4 + 2) % 4 = 1) := by omega
  have m2c' : (k * 4 + 2) % 4 = 2 := by omega
  simp [luminance, flatImage, h0, h2, n0, m1a, m1b, m2a, m2b, m2c,
    m1a', m1b', m2a', m2b', m2c']

/-- The Sobel gradient of a buffer that is constant on channel 0 vanishes:
the kernel weights sum to 0. -/
theorem convolveChannel_flat_zero (w h r g b a x y : ℕ) :
    convolveChannel (luminance (flatImage w h r g b a)) sobelKernel x y 0 = 0 := by
  have hrange : List.range 3 = [0, 1, 2] := rfl
  simp only [convolveChannel, sobelKernel]
  norm_num [hrange, luminance_flat_channel0]

/-- Channel 0 of the gradient-filtered flat buffer is zero everywhere. -/
theorem detectEdges_flat_channel0 (w h r g b a k : ℕ) :
    (detectEdges (flatImage w h r g b a)).data (k * 4) = 0 := by
  have h0 : (k * 4) % 4 = 0 := by omega
  simp [detectEdges, convolve, h0, convolveChannel_flat_zero, clampU8]

theorem reducedPixels_flat (w h r g b a : ℕ) :
    reducedPixels (detectEdges (flatImage w h r g b a))
      = List.replicate h (List.replicate w 0) := by
  have hw : (detectEdges (flatImage w h r g b a)).width = w := rfl
  have hh : (detectEdges (flatImage w h r g b a)).height = h := rfl
  simp only [reducedPixels, hw, hh]
  rw [List.eq_replicate_iff]
  refine ⟨by simp, ?_⟩
  intro row hrow
  simp only [List.mem_map, List.mem_range] at hrow
  obtain ⟨y, _, rfl⟩ := hrow
  rw [List.eq_replicate_iff]
  refine ⟨by simp, ?_⟩
  intro v hv
  simp only [List.mem_map, List.mem_range] at hv
  obtain ⟨x, _, rfl⟩ := hv
  exact detectEdges_flat_channel0 w h r g b a (y * w + x)

/-- The edge scan finds nothing in an all-zero row: no value ever drops
strictly below its predecessor. -/
theorem scanRowGo_zeros (n : ℕ) : ∀ (x : ℕ) (es : Option ℕ),
    scanRowGo x es 0 (List.replicate n 0) = (0, 0) := by
  induction n with
  | zero => intro x es; simp [scanRowGo]
  | succ n ih =>
    intro x es
    cases es <;> simp [List.replicate_succ, scanRowGo, ih]

theorem edgeScanTotals_zeros (w h : ℕ) :
    edgeScanTotals (List.replicate h (List.replicate w 0)) = (0, 0) := by
  induction h with
  | zero => simp [edgeScanTotals]
  | succ h ih =>
    simp only [edgeScanTotals, List.replicate_succ, List.foldl_cons] at ih ⊢
    simpa [scanRowGo_zeros] using ih

theorem measureBlurByEdges_flat (w h r g b a : ℕ) :
    (measureBlurByEdges (flatImage w h r g b a)).numEdges = 0
  ∧ (measureBlurByEdges (flatImage w h r g b a)).avgEdgeWidth = 0
  ∧ (measureBlurByEdges (flatImage w h r g b a)).avgEdgeWidthPerc = 0 := by
  unfold measureBlurByEdges
  rw [reducedPixels_flat]
  unfold detectBlur
  rw [edgeScanTotals_zeros]
  simp

/-- C7.  A uniform flat-color buffer of any positive size yields
`numEdges = 0` (with both averages 0 — the source short-circuits and never
divides), and the edge-method verdict marks it blurry via the
low-edge-count heuristic. -/
theorem flat_buffer_blurry (w h r g b a : ℕ) (cfg : Config) (vo : Option ℚ)
    (hw : 1 ≤ w) (hh : 1 ≤ h) (hmeth : cfg.method = .edge)
    (ht : 0 < cfg.edgeWidthThreshold) :
    (measureBlurByEdges (flatImage w h r g b a)).numEdges = 0
  ∧ (measureBlurByEdges (flatImage w h r g b a)).avgEdgeWidth = 0
  ∧ (measureBlurByEdges (flatImage w h r g b a)).avgEdgeWidthPerc = 0
  ∧ lowEdgeCount w h (measureBlurByEdges (flatImage w h r g b a)) = true
  ∧ (analyzeImage cfg (flatImage w h r g b a) vo).isBlurry = true := by
  obtain ⟨h1, h2, h3⟩ := measureBlurByEdges_flat w h r g b a
  have hwq : (0 : ℚ) < (w : ℚ) := by exact_mod_cast Nat.lt_of_lt_of_le Nat.zero_lt_one hw
  have hhq : (0 : ℚ) < (h : ℚ) := by exact_mod_cast Nat.lt_of_lt_of_le Nat.zero_lt_one hh
  have hlow : lowEdgeCount w h (measureBlurByEdges (flatImage w h r g b a)) = true := by
    simp only [lowEdgeCount, h1, decide_eq_true_eq, Nat.cast_zero]
    positivity
  refine ⟨h1, h2, h3, hlow, ?_⟩
  have hfw : (flatImage w h r g b a).width = w := rfl
  have hfh : (flatImage w h r g b a).height = h := rfl
  simp [analyzeImage, hmeth, hfw, hfh, hlow]

theorem flat_buffer_blurry_witness :
    ((1 : ℕ) ≤ 2
      ∧ (mkDetectorConfig {method := some .edge}).method = .edge
      ∧ 0 < (mkDetectorConfig {method := some .edge}).edgeWidthThreshold)
  ∧ ((measureBlurByEdges (flatImage 2 2 128 128 128 255)).numEdges = 0
      ∧ (measureBlurByEdges (flatImage 2 2 128 128 128 255)).avgEdgeWidth = 0
      ∧ (measureBlurByEdges (flatImage 2 2 128 128 128 255)).avgEdgeWidthPerc = 0
      ∧ lowEdgeCount 2 2 (measureBlurByEdges (flatImage 2 2 128 128 128 255)) = true
      ∧ (analyzeImage (mkDetectorConfig {method := some .edge})
          (flatImage 2 2 128 128 128 255) none).isBlurry = true) :=
  ⟨⟨by norm_num, rfl, by norm_num [mkDetectorConfig]⟩,
    flat_buffer_blurry 2 2 128 128 128 255 _ none (by norm_num) (by norm_num) rfl
      (by norm_num [mkDetectorConfig])⟩

/-- C5.  Edge-method verdict: `isBlurry = (avgEdgeWidthPerc >
edgeWidthThreshold) OR (numEdges < width*height/10000)` and
`confidence = min(avgEdgeWidthPerc/edgeWidthThreshold, 1)`. -/
theorem edge_method_verdict (cfg : Config) (img : ImageData) (vo : Option ℚ)
    (hmeth : cfg.method = .edge) (ht : 0 < cfg.edgeWidthThreshold) :
    ((analyzeImage cfg img vo).isBlurry = true ↔
      (cfg.edgeWidthThreshold < (measureBlurByEdges img).avgEdgeWidthPerc
       ∨ ((measureBlurByEdges img).numEdges : ℚ)
           < ((img.width : ℚ) * (img.height : ℚ)) / 10000))
  ∧ (analyzeImage cfg img vo).confidence
      = min ((measureBlurByEdges img).avgEdgeWidthPerc / cfg.edgeWidthThreshold) 1 := by
  simp [analyzeImage, hmeth, lowEdgeCount, edgeConfidenceOf]

theorem edge_method_verdict_witness :
    ((mkDetectorConfig {method := some .edge}).method = .edge
      ∧ 0 < (mkDetectorConfig {method := some .edge}).edgeWidthThreshold)
  ∧ (((analyzeImage (mkDetectorConfig {method := some .edge})
        (flatImage 2 2 128 128 128 255) (some 7)).isBlurry = true ↔
      ((mkDetectorConfig {method := some .edge}).edgeWidthThreshold
          < (measureBlurByEdges (flatImage 2 2 128 128 128 255)).avgEdgeWidthPerc
       ∨ ((measureBlurByEdges (flatImage 2 2 128 128 128 255)).numEdges : ℚ)
           < (((flatImage 2 2 128 128 128 255).width : ℚ)
              * ((flatImage 2 2 128 128 128 255).height : ℚ)) / 10000))
    ∧ (analyzeImage (mkDetectorConfig {method := some .edge})
        (flatImage 2 2 128 128 128 255) (some 7)).confidence
      = min ((measureBlurByEdges (flatImage 2 2 128 128 128 255)).avgEdgeWidthPerc
          / (mkDetectorConfig {method := some .edge}).edgeWidthThreshold) 1) :=
  ⟨⟨rfl, by norm_num [mkDetectorConfig]⟩,
    edge_method_verdict _ _ (some 7) rfl (by norm_num [mkDetectorConfig])⟩

/-- Both averages of the edge metrics are nonnegative joins of natural
counts. -/
theorem detectBlur_averages_nonneg (rows : List (List ℕ)) :
    0 ≤ (detectBlur rows).avgEdgeWidth ∧ 0 ≤ (detectBlur rows).avgEdgeWidthPerc := by
  unfold detectBlur
  by_cases hn : (edgeScanTotals rows).1 = 0
  · simp [hn]
  · simp only [hn, if_false]
    constructor
    · positivity
    · positivity

theorem edgeConfidenceOf_nonneg (cfg : Config) (ea : EdgeMetrics)
    (ht : 0 < cfg.edgeWidthThreshold) (hp : 0 ≤ ea.avgEdgeWidthPerc) :
    0 ≤ edgeConfidenceOf cfg ea := by
  unfold edgeConfidenceOf
  have : 0 ≤ ea.avgEdgeWidthPerc / cfg.edgeWidthThreshold := div_nonneg hp ht.le
  exact le_min this zero_le_one

/-- C10.  With method `both` and a failed vision capability, the result
still comes back: the verdict and confidence come from the edge metrics
alone (the absent variance contributes `false` and `0`), the
`laplacianVariance` metric is absent, and the method tag remains `both`
with no fallback marker. -/
theorem both_method_variance_failure (cfg : Config) (img : ImageData)
    (hmeth : cfg.method = .both) (ht : 0 < cfg.edgeWidthThreshold) :
    (analyzeImage cfg img none).method = "both"
  ∧ (analyzeImage cfg img none).metrics.laplacianVariance = none
  ∧ (analyzeImage cfg img none).metrics.edgeAnalysis = some (measureBlurByEdges img)
  ∧ ((analyzeImage cfg img none).isBlurry = true ↔
      (cfg.edgeWidthThreshold < (measureBlurByEdges img).avgEdgeWidthPerc
       ∨ ((measureBlurByEdges img).numEdges : ℚ)
           < ((img.width : ℚ) * (img.height : ℚ)) / 10000))
  ∧ (analyzeImage cfg img none).confidence = edgeConfidenceOf cfg (measureBlurByEdges img) := by
  have hnn : 0 ≤ edgeConfidenceOf cfg (measureBlurByEdges img) :=
    edgeConfidenceOf_nonneg cfg _ ht (detectBlur_averages_nonneg _).2
  simp [analyzeImage, hmeth, lowEdgeCount, Method.tag, max_eq_left hnn]

theorem both_method_variance_failure_witness :
    ((mkDetectorConfig {}).method = .both
      ∧ 0 < (mkDetectorConfig {}).edgeWidthThreshold)
  ∧ ((analyzeImage (mkDetectorConfig {}) (flatImage 2 2 128 128 128 255) none).method = "both"
    ∧ (analyzeImage (mkDetectorConfig {}) (flatImage 2 2 128 128 128 255)
        none).metrics.laplacianVariance = none
    ∧ (analyzeImage (mkDetectorConfig {}) (flatImage 2 2 128 128 128 255)
        none).metrics.edgeAnalysis = some (measureBlurByEdges (flatImage 2 2 128 128 128 255))
    ∧ ((analyzeImage (mkDetectorConfig {}) (flatImage 2 2 128 128 128 255)
          none).isBlurry = true ↔
        ((mkDetectorConfig {}).edgeWidthThreshold
            < (measureBlurByEdges (flatImage 2 2 128 128 128 255)).avgEdgeWidthPerc
         ∨ ((measureBlurByEdges (flatImage 2 2 128 128 128 255)).numEdges : ℚ)
             < (((flatImage 2 2 128 128 128 255).width : ℚ)
                * ((flatImage 2 2 128 128 128 255).height : ℚ)) / 10000))
    ∧ (analyzeImage (mkDetectorConfig {}) (flatImage 2 2 128 128 128 255) none).confidence
        = edgeConfidenceOf (mkDetectorConfig {})
            (measureBlurByEdges (flatImage 2 2 128 128 128 255))) :=
  ⟨⟨rfl, by norm_num [mkDetectorConfig]⟩,
    both_method_variance_failure _ _ rfl (by norm_num [mkDetectorConfig])⟩

/-- C3 (amended).  On any failure of the vision capability with method
`variance` (`laplacian`), the analysis still returns: the edge metrics are
computed and stored, the method is tagged `"edge (fallback)"`, the
confidence is the edge confidence — but the blur decision of the fallback
is `avgEdgeWidthPerc > edgeWidthThreshold` alone, without the edge
method's low-edge-count heuristic. -/
theorem laplacian_fallback (cfg : Config) (img : ImageData)
    (hmeth : cfg.method = .laplacian) :
    (analyzeImage cfg img none).method = "edge (fallback)"
  ∧ (analyzeImage cfg img none).metrics.edgeAnalysis = some (measureBlurByEdges img)
  ∧ (analyzeImage cfg img none).isBlurry
      = decide (cfg.edgeWidthThreshold < (measureBlurByEdges img).avgEdgeWidthPerc)
  ∧ (analyzeImage cfg img none).confidence = edgeConfidenceOf cfg (measureBlurByEdges img) := by
  simp [analyzeImage, hmeth]

theorem laplacian_fallback_witness :
    ((mkDetectorConfig {method := some .laplacian}).method = .laplacian)
  ∧ ((analyzeImage (mkDetectorConfig {method := some .laplacian})
        (flatImage 2 2 128 128 128 255) none).method = "edge (fallback)"
    ∧ (analyzeImage (mkDetectorConfig {method := some .laplacian})
        (flatImage 2 2 128 128 128 255) none).metrics.edgeAnalysis
        = some (measureBlurByEdges (flatImage 2 2 128 128 128 255))
    ∧ (analyzeImage (mkDetectorConfig {method := some .laplacian})
        (flatImage 2 2 128 128 128 255) none).isBlurry
        = decide ((mkDetectorConfig {method := some .laplacian}).edgeWidthThreshold
            < (measureBlurByEdges (flatImage 2 2 128 128 128 255)).avgEdgeWidthPerc)
    ∧ (analyzeImage (mkDetectorConfig {method := some .laplacian})
        (flatImage 2 2 128 128 128 255) none).confidence
        = edgeConfidenceOf (mkDetectorConfig {method := some .laplacian})
            (measureBlurByEdges (flatImage 2 2 128 128 128 255))) :=
  ⟨rfl, laplacian_fallback _ _ rfl⟩

/-- C3 counterexample: on a 2×2 flat buffer the vision capability fails;
the fallback result is tagged as the fallback variant, yet its blur
decision is `false` while the edge method's blur decision on the same
buffer is `true` (the low-edge-count heuristic fires) — so the fallback
does not include the edge method's blur decision. -/
theorem laplacian_fallback_decision_differs :
    (analyzeImage (mkDetectorConfig {method := some .laplacian})
        (flatImage 2 2 128 128 128 255) none).method = "edge (fallback)"
  ∧ (analyzeImage (mkDetectorConfig {method := some .edge})
        (flatImage 2 2 128 128 128 255) none).isBlurry = true
  ∧ (analyzeImage (mkDetectorConfig {method := some .laplacian})
        (flatImage 2 2 128 128 128 255) none).isBlurry = false := by
  obtain ⟨h1, h2, h3⟩ := measureBlurByEdges_flat 2 2 128 128 128 255
  refine ⟨by simp [analyzeImage, mkDetectorConfig], ?_, ?_⟩
  · have hlow : lowEdgeCount 2 2 (measureBlurByEdges (flatImage 2 2 128 128 128 255)) = true := by
      simp only [lowEdgeCount, h1, decide_eq_true_eq, Nat.cast_zero]
      norm_num
    have hfw : (flatImage 2 2 128 128 128 255).width = 2 := rfl
    have hfh : (flatImage 2 2 128 128 128 255).height = 2 := rfl
    simp [analyzeImage, mkDetectorConfig, hfw, hfh, hlow]
  · simp [analyzeImage, mkDetectorConfig, h3]
    norm_num

theorem rat_sqrt_zero : Rat.sqrt 0 = 0 := by simpa using Rat.sqrt_eq 0

/-- C2 (amended).  With positive thresholds and a nonnegative variance
outcome, the confidence lies in `[0, 1]` on every `analyzeImage` path (edge
estimator, variance estimator with or without fallback, both-methods
combinator) and for the multi-scale page merge of three scale results with
confidences in `[0, 1]`; the per-page combination with text sharpness is
only bounded below by 0 — its value `max(page confidence,
textSharpnessScore)` exceeds 1 whenever the (unbounded) sharpness score
does, see `page_text_confidence_exceeds_one`. -/
theorem confidence_bounds (cfg : Config) (img : ImageData) (vo : Option ℚ)
    (r1 r2 r3 : BlurAnalysisResult) (pa : BlurAnalysisResult) (ts : TextSharpness)
    (hdr : Bool)
    (het : 0 < cfg.edgeWidthThreshold) (hlt : 0 < cfg.laplacianThreshold)
    (hvo : ∀ v ∈ vo, 0 ≤ v)
    (h1 : 0 ≤ r1.confidence ∧ r1.confidence ≤ 1)
    (h2 : 0 ≤ r2.confidence ∧ r2.confidence ≤ 1)
    (h3 : 0 ≤ r3.confidence ∧ r3.confidence ≤ 1)
    (hpa : 0 ≤ pa.confidence) :
    (0 ≤ (analyzeImage cfg img vo).confidence
      ∧ (analyzeImage cfg img vo).confidence ≤ 1)
  ∧ (0 ≤ (mergeScaleResults [r1, r2, r3]).confidence
      ∧ (mergeScaleResults [r1, r2, r3]).confidence ≤ 1)
  ∧ 0 ≤ (combinePageWithText pa ts hdr).confidence := by
  have hE0 : 0 ≤ edgeConfidenceOf cfg (measureBlurByEdges img) :=
    edgeConfidenceOf_nonneg cfg _ het (detectBlur_averages_nonneg _).2
  have hE1 : edgeConfidenceOf cfg (measureBlurByEdges img) ≤ 1 := min_le_right _ _
  refine ⟨?_, ?_, ?_⟩
  · rcases vo with _ | v
    · cases hm : cfg.method
      · simpa [analyzeImage, hm] using ⟨hE0, hE1⟩
      · simpa [analyzeImage, hm] using ⟨hE0, hE1⟩
      · constructor
        · simpa [analyzeImage, hm] using le_max_of_le_left hE0
        · simpa [analyzeImage, hm] using max_le hE1 zero_le_one
    · have hv : 0 ≤ v := hvo v (by simp)
      have hL0 : 0 ≤ (if v = 0 then (0:ℚ) else min (cfg.laplacianThreshold / v) 1) := by
        by_cases hv0 : v = 0
        · simp [hv0]
        · have hvpos : 0 < v := lt_of_le_of_ne hv (Ne.symm hv0)
          simp only [hv0, if_false]
          exact le_min (div_nonneg hlt.le hv) zero_le_one
      have hL1 : (if v = 0 then (0:ℚ) else min (cfg.laplacianThreshold / v) 1) ≤ 1 := by
        by_cases hv0 : v = 0
        · simp [hv0]
        · simp only [hv0, if_false]
          exact min_le_right _ _
      cases hm : cfg.method
      · simpa [analyzeImage, hm] using ⟨hE0, hE1⟩
      · by_cases hv0 : v = 0
        · simp [analyzeImage, hm, hv0]
        · have hvpos : 0 < v := lt_of_le_of_ne hv (Ne.symm hv0)
          constructor
          · simpa [analyzeImage, hm, hv0] using
              le_min (div_nonneg hlt.le hv) zero_le_one
          · simpa [analyzeImage, hm, hv0] using min_le_right (cfg.laplacianThreshold / v) 1
      · constructor
        · simpa [analyzeImage, hm] using le_max_of_le_left hE0
        · simpa [analyzeImage, hm] using max_le hE1 hL1
  · have hcount : ((List.filter (fun r => r.isBlurry) [r1, r2, r3]).length) ≤ 3 := by
      simpa using List.length_filter_le (fun r => r.isBlurry) [r1, r2, r3]
    have hcq : ((List.filter (fun r => r.isBlurry) [r1, r2, r3]).length : ℚ) ≤ 3 := by
      exact_mod_cast hcount
    have hc0 : (0:ℚ) ≤ ((List.filter (fun r => r.isBlurry) [r1, r2, r3]).length : ℚ) := by
      positivity
    have hsum0 : (0:ℚ) ≤ 0 + r1.confidence + r2.confidence + r3.confidence := by
      linarith [h1.1, h2.1, h3.1]
    have hsum3 : 0 + r1.confidence + r2.confidence + r3.confidence ≤ 3 := by
      linarith [h1.2, h2.2, h3.2]
    constructor
    · simp only [mergeScaleResults, List.foldl_cons, List.foldl_nil, List.length_cons,
        List.length_nil]
      refine le_max_of_le_left ?_
      push_cast
      positivity
    · simp only [mergeScaleResults, List.foldl_cons, List.foldl_nil, List.length_cons,
        List.length_nil]
      refine max_le ?_ ?_
      · push_cast
        linarith
      · push_cast
        linarith
  · exact le_trans hpa
      (by simp only [combinePageWithText]; exact le_max_left _ _)

theorem confidence_bounds_witness :
    (0 < (mkDetectorConfig {}).edgeWidthThreshold
      ∧ 0 < (mkDetectorConfig {}).laplacianThreshold
      ∧ (∀ v ∈ (some (5:ℚ)), 0 ≤ v)
      ∧ (0 ≤ clearPage.confidence ∧ clearPage.confidence ≤ 1))
  ∧ ((0 ≤ (analyzeImage (mkDetectorConfig {}) (flatImage 1 1 0 0 0 0) (some 5)).confidence
      ∧ (analyzeImage (mkDetectorConfig {}) (flatImage 1 1 0 0 0 0) (some 5)).confidence ≤ 1)
    ∧ (0 ≤ (mergeScaleResults [clearPage, clearPage, clearPage]).confidence
      ∧ (mergeScaleResults [clearPage, clearPage, clearPage]).confidence ≤ 1)
    ∧ 0 ≤ (combinePageWithText clearPage ⟨0, true, 0, 0, 0⟩ false).confidence) :=
  ⟨⟨by norm_num [mkDetectorConfig], by norm_num [mkDetectorConfig],
      by intro v hv; simp only [Option.mem_def, Option.some.injEq] at hv; subst hv; norm_num,
      by norm_num [clearPage]⟩,
    confidence_bounds (mkDetectorConfig {}) (flatImage 1 1 0 0 0 0) (some 5)
      clearPage clearPage clearPage clearPage ⟨0, true, 0, 0, 0⟩ false
      (by norm_num [mkDetectorConfig]) (by norm_num [mkDetectorConfig])
      (by intro v hv; simp only [Option.mem_def, Option.some.injEq] at hv; subst hv; norm_num)
      (by norm_num [clearPage]) (by norm_num [clearPage]) (by norm_num [clearPage])
      (by norm_num [clearPage])⟩

theorem sharpCorner_gray (x y : ℕ) :
    grayAt sharpCornerImage x y = if y * 6 + x = 28 then 255 else 0 := by
  have h0 : ((y * 6 + x) * 4) / 4 = y * 6 + x := by omega
  have h1 : ((y * 6 + x) * 4 + 1) / 4 = y * 6 + x := by omega
  have h2 : ((y * 6 + x) * 4 + 2) / 4 = y * 6 + x := by omega
  have m0 : ¬(((y * 6 + x) * 4) % 4 = 3) := by omega
  have m1 : ¬(((y * 6 + x) * 4 + 1) % 4 = 3) := by omega
  have m2 : ¬(((y * 6 + x) * 4 + 2) % 4 = 3) := by omega
  by_cases hp : y * 6 + x = 28 <;>
    simp [grayAt, sharpCornerImage, h0, h1, h2, m0, m1, m2, hp] <;> norm_num

set_option maxRecDepth 4000 in
theorem sharpCorner_windowAcc :
    windowAccAt sharpCornerImage 0 0
      = { localSum := 255, localSumSq := 65025, localCount := 25, maxGradient := 0 } := by
  have hr : List.range 5 = [0, 1, 2, 3, 4] := rfl
  simp only [windowAccAt, hr, List.foldl_cons, List.foldl_nil, sharpCorner_gray]
  norm_num [rat_sqrt_zero]

theorem sharpCorner_score :
    (calculateTextSharpness sharpCornerImage).textSharpnessScore = 7803/3125 := by
  have hs : strideOf sharpCornerImage = 1 := rfl
  have hw : (sharpCornerImage.height - 5) = 1 := rfl
  have hww : (sharpCornerImage.width - 5) = 1 := rfl
  have hp : samplePositions 1 1 = [0] := rfl
  simp only [calculateTextSharpness, hs, hw, hww, hp, List.foldl_cons, List.foldl_nil,
    textSharpnessStep, sharpCorner_windowAcc]
  norm_num

/-- C2 counterexample: a page whose (externally rendered) high-resolution
buffer is `sharpCornerImage` yields `textSharpnessScore = 2.49696`, and the
per-page combination stores `confidence = max(pageConfidence,
textSharpnessScore) = 2.49696 > 1` — the produced confidence leaves
`[0, 1]`. -/
theorem page_text_confidence_exceeds_one :
    1 < (combinePageWithText clearPage (calculateTextSharpness sharpCornerImage)
          false).confidence := by
  simp only [combinePageWithText]
  refine lt_max_of_lt_right ?_
  rw [sharpCorner_score]
  norm_num

/-- The merge of exactly three scale-level results, for arbitrary results:
any-blurry verdict and `max(mean confidence, blurryCount/3)`. -/
theorem mergeScaleResults_three (a b c : BlurAnalysisResult) :
    ((mergeScaleResults [a, b, c]).isBlurry = true ↔
      (a.isBlurry = true ∨ b.isBlurry = true ∨ c.isBlurry = true))
  ∧ (mergeScaleResults [a, b, c]).confidence =
      max ((a.confidence + b.confidence + c.confidence) / 3)
        (((if a.isBlurry then (1:ℚ) else 0) + (if b.isBlurry then (1:ℚ) else 0)
          + (if c.isBlurry then (1:ℚ) else 0)) / 3) := by
  cases ha : a.isBlurry <;> cases hb : b.isBlurry <;> cases hc : c.isBlurry <;>
  · constructor
    · simp [mergeScaleResults, List.filter, ha, hb, hc]
    · simp only [mergeScaleResults, List.filter, ha, hb, hc, List.foldl_cons,
        List.foldl_nil, List.length_cons, List.length_nil]
      norm_num

/-- C6.  Multi-scale page merge: for a page rendered and analyzed at the
three scales 1.0, 1.5, 2.0, the merged verdict is blurry iff at least one
scale-level result reports blur, and the merged confidence is the maximum
of the mean of the three scale-level confidences and `blurryCount/3`. -/
theorem multi_scale_merge (c : BlurDetectionConfig) (render : ℚ → ImageData) :
    ((checkPdfPageQuality c render).isBlurry = true ↔
      ((analyzeImage (pdfScaleConfig c) (render 1) none).isBlurry = true
       ∨ (analyzeImage (pdfScaleConfig c) (render (3/2)) none).isBlurry = true
       ∨ (analyzeImage (pdfScaleConfig c) (render 2) none).isBlurry = true))
  ∧ (checkPdfPageQuality c render).confidence =
      max (((analyzeImage (pdfScaleConfig c) (render 1) none).confidence
            + (analyzeImage (pdfScaleConfig c) (render (3/2)) none).confidence
            + (analyzeImage (pdfScaleConfig c) (render 2) none).confidence) / 3)
        (((if (analyzeImage (pdfScaleConfig c) (render 1) none).isBlurry then (1:ℚ) else 0)
          + (if (analyzeImage (pdfScaleConfig c) (render (3/2)) none).isBlurry then (1:ℚ)
             else 0)
          + (if (analyzeImage (pdfScaleConfig c) (render 2) none).isBlurry then (1:ℚ)
             else 0))
          / 3) := by
  have h := mergeScaleResults_three
    { analyzeImage (pdfScaleConfig c) (render 1) none with
        method := (analyzeImage (pdfScaleConfig c) (render 1) none).method
          ++ " (scale " ++ toString (1 : ℚ) ++ "x)" }
    { analyzeImage (pdfScaleConfig c) (render (3/2)) none with
        method := (analyzeImage (pdfScaleConfig c) (render (3/2)) none).method
          ++ " (scale " ++ toString (3/2 : ℚ) ++ "x)" }
    { analyzeImage (pdfScaleConfig c) (render 2) none with
        method := (analyzeImage (pdfScaleConfig c) (render 2) none).method
          ++ " (scale " ++ toString (2 : ℚ) ++ "x)" }
  have hunfold : checkPdfPageQuality c render = mergeScaleResults
    [{ analyzeImage (pdfScaleConfig c) (render 1) none with
        method := (analyzeImage (pdfScaleConfig c) (render 1) none).method
          ++ " (scale " ++ toString (1 : ℚ) ++ "x)" },
     { analyzeImage (pdfScaleConfig c) (render (3/2)) none with
        method := (analyzeImage (pdfScaleConfig c) (render (3/2)) none).method
          ++ " (scale " ++ toString (3/2 : ℚ) ++ "x)" },
     { analyzeImage (pdfScaleConfig c) (render 2) none with
        method := (analyzeImage (pdfScaleConfig c) (render 2) none).method
          ++ " (scale " ++ toString (2 : ℚ) ++ "x)" }] := rfl
  rw [hunfold]
  simpa using h
